import Mathlib

/-!
Verification of the pallet pattern editor.

Shallow embedding of the editor core found in the repository sources:
the geometry helpers (`clamp`, `snap`, `getDims`, `clampBoxToPallet`),
the editor state and its mutating operations (add / rotate / delete /
clear / drag-move / pallet-input update / recipe import / pointer
selection), the recipe codec (`exportRecipe` / `importRecipe`), the
viewport transform (`worldToScreen` / `screenToWorld` / `zoomAt`), and
the PLC array transfer adapter (`writePattern` / `readPattern` in the
two `PlcManager` variants, plus the slot-parsing read path of the React
variant).

JavaScript numbers are modelled as exact rationals (`ℚ`); `Math.round`
is modelled as `jround` (round half towards positive infinity, which is
the JS semantics).  A falsy numeric input (empty string / NaN / 0) is
modelled as the rational `0`, matching JS truthiness tests on numbers.
The DOM and the canvas are outside the model; functions that read DOM
input fields take those values as explicit arguments.
-/

namespace Pallet

/-- JavaScript `Math.round`: round half towards positive infinity. -/
def jround (q : ℚ) : ℤ := ⌊q + 1/2⌋

/-- `clamp(n, min, max) = Math.max(min, Math.min(max, n))` from the source.
Note that when `lo > hi` the result is `lo` (the outer `max` wins). -/
def clampQ (n lo hi : ℚ) : ℚ := max lo (min hi n)

/-- `snap(n, step)`: identity when `step <= 1`, else round `n` to the
nearest multiple of `step`. -/
def snapQ (n step : ℚ) : ℚ := if step ≤ 1 then n else (jround (n / step) : ℚ) * step

/-- Box rotation: `0` or `90` degrees. -/
inductive Rot where
  | r0
  | r90
deriving DecidableEq, Repr

/-- Numeric value of a rotation, as serialized to the recipe and the PLC. -/
def rotVal : Rot → ℚ
  | .r0 => 0
  | .r90 => 90

/-- A placed box: centre `(x, y)` in millimetres, nominal width/depth
`w`/`d`, rotation `rot`. -/
structure Box where
  id : ℕ
  x : ℚ
  y : ℚ
  w : ℚ
  d : ℚ
  rot : Rot
deriving DecidableEq, Repr

/-- Rotation-adjusted half width (`getDims(b).hw` in the source). -/
def hw (b : Box) : ℚ := (if b.rot = Rot.r0 then b.w else b.d) / 2

/-- Rotation-adjusted half depth (`getDims(b).hd` in the source). -/
def hd (b : Box) : ℚ := (if b.rot = Rot.r0 then b.d else b.w) / 2

/-- `clampBoxToPallet`: clamp the box centre into
`[hw, palletW-hw] × [hd, palletD-hd]` using `clampQ`. -/
def clampBoxToPallet (pW pD : ℚ) (b : Box) : Box :=
  { b with x := clampQ b.x (hw b) (pW - hw b), y := clampQ b.y (hd b) (pD - hd b) }

/-- `boxes.find(x => x.id === id)`-style in-place update of the first
matching element, the list-functional rendering of the source's mutation
of the found object. -/
def updateFirst (p : Box → Bool) (f : Box → Box) : List Box → List Box
  | [] => []
  | b :: bs => if p b then f b :: bs else b :: updateFirst p f bs

/-- JS `array.map((x, idx) => ...)` / `forEach` with the element index,
starting at a given index. -/
def mapWithIdx {α β : Type} (f : ℕ → α → β) : ℕ → List α → List β
  | _, [] => []
  | i, a :: as => f i a :: mapWithIdx f (i + 1) as

/-- A box entry of the textual `Recipe` interchange structure (no id;
`rot` kept raw, it is coerced on import). -/
structure RecipeBox where
  x : ℚ
  y : ℚ
  w : ℚ
  d : ℚ
  rot : ℚ
deriving DecidableEq, Repr

/-- The `Recipe` interchange structure: pallet dimensions, grid, boxes.
An absent `pallet.w` / `pallet.d` / `grid` field is modelled as `0`
(both are falsy in the JS truthiness checks the source performs). -/
structure Recipe where
  palletW : ℚ
  palletD : ℚ
  grid : ℚ
  boxes : List RecipeBox
deriving DecidableEq, Repr

/-- The module-level mutable editor state of `part_001`: pallet config,
box collection, the `nextId` allocation counter and the selection. -/
structure EditorState where
  palletW : ℚ
  palletD : ℚ
  grid : ℚ
  boxes : List Box
  nextId : ℕ
  selectedId : Option ℕ
deriving DecidableEq, Repr

/-- Initial state of the editor (`palletW = 1200`, `palletD = 800`,
`grid = 20`, no boxes, `nextId = 1`, nothing selected). -/
def initState : EditorState :=
  { palletW := 1200, palletD := 800, grid := 20, boxes := [], nextId := 1, selectedId := none }

/-- The box constructed by `addBoxAt(x, y)`: dimensions from the two
input fields (`Math.max(10, Number(el.value) || default)`), position
snapped to the grid, then clamped to the pallet, id `nextId`. -/
def newBoxOf (bwIn bdIn x y : ℚ) (st : EditorState) : Box :=
  clampBoxToPallet st.palletW st.palletD
    { id := st.nextId
      x := snapQ x st.grid
      y := snapQ y st.grid
      w := max 10 (if bwIn = 0 then 300 else bwIn)
      d := max 10 (if bdIn = 0 then 200 else bdIn)
      rot := Rot.r0 }

/-- `addBoxAt`: push the new box, select it, bump `nextId`. -/
def addBoxAt (bwIn bdIn x y : ℚ) (st : EditorState) : EditorState :=
  { st with
      boxes := st.boxes ++ [newBoxOf bwIn bdIn x y st]
      nextId := st.nextId + 1
      selectedId := some st.nextId }

/-- `rotateSelected`: toggle the selected box's rotation, then re-clamp it. -/
def rotateSelected (st : EditorState) : EditorState :=
  match st.selectedId with
  | none => st
  | some i =>
    { st with
        boxes := updateFirst (fun b => b.id == i)
          (fun b =>
            clampBoxToPallet st.palletW st.palletD
              { b with rot := if b.rot = Rot.r0 then Rot.r90 else Rot.r0 })
          st.boxes }

/-- `deleteSelected`: remove the selected box (if any) and clear the selection. -/
def deleteSelected (st : EditorState) : EditorState :=
  match st.selectedId with
  | none => st
  | some i =>
    { st with boxes := st.boxes.filter (fun b => ¬ b.id == i), selectedId := none }

/-- `clearAll`: empty the collection, reset `nextId`, clear the selection. -/
def clearAll (st : EditorState) : EditorState :=
  { st with boxes := [], nextId := 1, selectedId := none }

/-- The `pointermove` handler while dragging: the selected box's centre
is set to the grid-snapped drag target (pointer world position plus the
captured drag offset), then clamped to the pallet. -/
def dragMove (tx ty : ℚ) (st : EditorState) : EditorState :=
  match st.selectedId with
  | none => st
  | some i =>
    { st with
        boxes := updateFirst (fun b => b.id == i)
          (fun b =>
            clampBoxToPallet st.palletW st.palletD
              { b with x := snapQ tx st.grid, y := snapQ ty st.grid })
          st.boxes }

/-- `updateFromInputs`: read pallet width / depth / grid from the input
fields (minimums 100 / 100 / 1, falling back to the previous value on a
falsy input), then re-snap and re-clamp every box. -/
def updateFromInputs (pwIn pdIn gIn : ℚ) (st : EditorState) : EditorState :=
  let pW := max 100 (if pwIn = 0 then st.palletW else pwIn)
  let pD := max 100 (if pdIn = 0 then st.palletD else pdIn)
  let g := max 1 (if gIn = 0 then st.grid else gIn)
  { st with
      palletW := pW, palletD := pD, grid := g
      boxes := st.boxes.map (fun b =>
        clampBoxToPallet pW pD { b with x := snapQ b.x g, y := snapQ b.y g }) }

/-- `exportRecipe`: serialize the pallet config, grid and the id-less
box tuples. -/
def exportRecipe (st : EditorState) : Recipe :=
  { palletW := st.palletW
    palletD := st.palletD
    grid := st.grid
    boxes := st.boxes.map (fun b => ⟨b.x, b.y, b.w, b.d, rotVal b.rot⟩) }

/-- The box built for array index `idx` by `importRecipe`: id `idx + 1`,
position snapped to the imported grid, `rot` coerced (`90` stays, any
other value becomes `0`), then clamped against the imported pallet. -/
def importBoxF (pW pD g : ℚ) (idx : ℕ) (rb : RecipeBox) : Box :=
  clampBoxToPallet pW pD
    { id := idx + 1
      x := snapQ rb.x g
      y := snapQ rb.y g
      w := rb.w
      d := rb.d
      rot := if rb.rot = 90 then Rot.r90 else Rot.r0 }

/-- `importRecipe` of `part_001`.  `none` models unparseable text (the
`catch` branch).  A recipe whose `pallet.w` or `pallet.d` is falsy
(absent or `0`) is rejected, leaving the state unchanged.  Otherwise
the pallet dimensions are taken verbatim, `grid` falls back to `10`
when falsy, the boxes are rebuilt with ids `1..N`, and `nextId` becomes
`N + 1`. -/
def importRecipe (st : EditorState) (r? : Option Recipe) : EditorState :=
  match r? with
  | none => st
  | some r =>
    if r.palletW = 0 ∨ r.palletD = 0 then st
    else
      let g := if r.grid = 0 then 10 else r.grid
      let bs := mapWithIdx (importBoxF r.palletW r.palletD g) 0 r.boxes
      { st with
          palletW := r.palletW, palletD := r.palletD, grid := g
          boxes := bs, nextId := bs.length + 1 }

/-- The hit condition of `hitTest`: the point lies inside the box's
rotation-adjusted bounding rectangle. -/
def insideB (b : Box) (wx wy : ℚ) : Prop :=
  b.x - hw b ≤ wx ∧ wx ≤ b.x + hw b ∧ b.y - hd b ≤ wy ∧ wy ≤ b.y + hd b

instance (b : Box) (wx wy : ℚ) : Decidable (insideB b wx wy) := by
  unfold insideB; infer_instance

/-- `hitTest`: topmost (last-inserted-wins) box containing the point.
The source iterates from the end of the array; here later elements take
priority over earlier ones. -/
def hitTest : List Box → ℚ → ℚ → Option Box
  | [], _, _ => none
  | b :: bs, wx, wy =>
    match hitTest bs wx wy with
    | some r => some r
    | none => if insideB b wx wy then some b else none

/-- The `pointerdown` selection branch (primary button): select the hit
box, or clear the selection on a miss. -/
def selectAt (wx wy : ℚ) (st : EditorState) : EditorState :=
  { st with selectedId := (hitTest st.boxes wx wy).map Box.id }

/-- The mutating operations of the editor, with the DOM input values
each operation reads carried as arguments. -/
inductive Op where
  | add (bw bd x y : ℚ)
  | rotate
  | delete
  | clear
  | drag (tx ty : ℚ)
  | inputs (pw pd g : ℚ)
  | imp (r : Option Recipe)
  | select (wx wy : ℚ)

/-- Dispatch one operation. -/
def applyOp : Op → EditorState → EditorState
  | .add bw bd x y => addBoxAt bw bd x y
  | .rotate => rotateSelected
  | .delete => deleteSelected
  | .clear => clearAll
  | .drag tx ty => dragMove tx ty
  | .inputs pw pd g => updateFromInputs pw pd g
  | .imp r => (importRecipe · r)
  | .select wx wy => selectAt wx wy

/-- Run a sequence of operations. -/
def applyOps (ops : List Op) (st : EditorState) : EditorState :=
  ops.foldl (fun s o => applyOp o s) st

/-! ### Viewport transform -/

/-- The view transform state: `panX`, `panY` and `scale` (screen px per
world mm). -/
structure Viewport where
  panX : ℚ
  panY : ℚ
  scale : ℚ
deriving DecidableEq, Repr

/-- `worldToScreen(wx, wy) = (panX + wx*scale, panY + wy*scale)`. -/
def worldToScreen (v : Viewport) (wx wy : ℚ) : ℚ × ℚ :=
  (v.panX + wx * v.scale, v.panY + wy * v.scale)

/-- `screenToWorld(sx, sy) = ((sx-panX)/scale, (sy-panY)/scale)`. -/
def screenToWorld (v : Viewport) (sx sy : ℚ) : ℚ × ℚ :=
  ((sx - v.panX) / v.scale, (sy - v.panY) / v.scale)

/-- `zoomAt(sx, sy, factor)`: record the world point under the pointer,
multiply the scale (clamped to `[0.05, 4.0]`), recompute the world
point under the pointer at the new scale with the old pan, and shift
the pan by the world-space difference times the new scale. -/
def zoomAt (v : Viewport) (sx sy factor : ℚ) : Viewport :=
  let before := screenToWorld v sx sy
  let s2 := clampQ (v.scale * factor) (1/20) 4
  let after := screenToWorld { v with scale := s2 } sx sy
  { panX := v.panX + (after.1 - before.1) * s2
    panY := v.panY + (after.2 - before.2) * s2
    scale := s2 }

/-! ### PLC array transfer adapter

Two `PlcManager.writePattern` variants exist in the sources; both are
embedded.  The injected transport (`bulkExecute`) is modelled by
recording the list of tag/value pairs handed to it together with a flag
telling whether the transport was invoked at all; the transport itself
is modelled as succeeding, since every claim under verification is
about behaviour up to (and not beyond) the bulk call. -/

/-- A controller-side tag address, structured: the metadata tags and the
per-slot field tags `web_data[idx].<field>` of the `GDB_Palletizing`
data block. -/
inductive FieldName where
  | x
  | y
  | w
  | d
  | l
  | rot
deriving DecidableEq, Repr

/-- Tag addresses used by the two write paths and the read path. -/
inductive TagVar where
  | boxCount
  | patternHeight
  | patternLayers
  | useWebPattern
  | productCount
  | field (idx : ℕ) (f : FieldName)
deriving DecidableEq, Repr

/-- A value written to a tag (numbers or the boolean `useWebPattern`). -/
inductive TagValue where
  | num (q : ℚ)
  | bool (b : Bool)
deriving DecidableEq, Repr

/-- One `(tagPath, value)` pair of a bulk write. -/
structure TagW where
  var : TagVar
  value : TagValue
deriving DecidableEq, Repr

/-- Outcome of a write-path invocation: whether the adapter reported
success, the tag/value pairs handed to the transport (empty when the
call was refused before the transport), and whether the transport
capability was invoked. -/
structure WriteRes where
  success : Bool
  sent : List TagW
  called : Bool
deriving DecidableEq, Repr

/-- Outcome of a read-path invocation: the reconstructed data (always
empty in the stubbed `part_001` variant), the tags requested from the
transport, and whether the transport was invoked. -/
structure ReadRes where
  data : List Recipe
  requested : List TagVar
  called : Bool
deriving DecidableEq, Repr

/-- The five field tags pushed per box by the `part_001`
`PlcManager.writePattern` (values `Math.round`ed), for boxes from
1-based index `i` on. -/
def boxParamsV1 : ℕ → List Box → List TagW
  | _, [] => []
  | i, b :: bs =>
    ⟨.field i .x, .num (jround b.x : ℤ)⟩ ::
    ⟨.field i .y, .num (jround b.y : ℤ)⟩ ::
    ⟨.field i .w, .num (jround b.w : ℤ)⟩ ::
    ⟨.field i .d, .num (jround b.d : ℤ)⟩ ::
    ⟨.field i .rot, .num (rotVal b.rot)⟩ ::
    boxParamsV1 (i + 1) bs

/-- The full tag list of the `part_001` write path: the `BoxCount` tag
followed by five field tags per box, indices `1..N`. -/
def writeParamsV1 (bs : List Box) : List TagW :=
  ⟨.boxCount, .num (bs.length : ℚ)⟩ :: boxParamsV1 1 bs

/-- `PlcManager.writePattern` of `part_001`: refuse without a session
token; otherwise hand the whole tag list to the transport in one bulk
call.  There is no box-count limit check in this variant. -/
def writePatternV1 (token : Option String) (bs : List Box) : WriteRes :=
  match token with
  | none => ⟨false, [], false⟩
  | some _ => ⟨true, writeParamsV1 bs, true⟩

/-- The five field tags pushed per box by the `part_002`
`PlcManager.writePattern` (raw values, depth under the `l` field). -/
def boxParamsV2 : ℕ → List Box → List TagW
  | _, [] => []
  | i, b :: bs =>
    ⟨.field i .x, .num b.x⟩ ::
    ⟨.field i .y, .num b.y⟩ ::
    ⟨.field i .w, .num b.w⟩ ::
    ⟨.field i .l, .num b.d⟩ ::
    ⟨.field i .rot, .num (rotVal b.rot)⟩ ::
    boxParamsV2 (i + 1) bs

/-- The full tag list of the `part_002` write path: four leading scalar
tags (layer height, layer count, `useWebPattern`, product count), then
five field tags per box. -/
def writeParamsV2 (height layers : ℚ) (bs : List Box) : List TagW :=
  ⟨.patternHeight, .num height⟩ ::
  ⟨.patternLayers, .num layers⟩ ::
  ⟨.useWebPattern, .bool true⟩ ::
  ⟨.productCount, .num (bs.length : ℚ)⟩ ::
  boxParamsV2 1 bs

/-- `PlcManager.writePattern` of `part_002`: refuse without a session
token; refuse (before building any tag) when more than 20 boxes are
passed; otherwise hand the tag list to the transport. -/
def writePatternV2 (token : Option String) (height layers : ℚ) (bs : List Box) : WriteRes :=
  match token with
  | none => ⟨false, [], false⟩
  | some _ =>
    if 20 < bs.length then ⟨false, [], false⟩
    else ⟨true, writeParamsV2 height layers bs, true⟩

/-- The read-request tag list of the `part_001` read path: for each slot
`i` the five field tags in source order `l, w, rot, x, y` (the loop
`for (i = 1; i < 20; i++)` covers slots `1..19`). -/
def readReqSlots : ℕ → ℕ → List TagVar
  | _, 0 => []
  | i, n + 1 =>
    .field i .l :: .field i .w :: .field i .rot :: .field i .x :: .field i .y ::
    readReqSlots (i + 1) n

/-- `PlcManager.readPattern` of `part_001`: refuse without a session
token (returning the empty collection, this variant's failure value,
without building a request); otherwise request the per-slot tags and
return the empty collection (the response mapping is a stub). -/
def readPatternV1 (token : Option String) : ReadRes :=
  match token with
  | none => ⟨[], [], false⟩
  | some _ => ⟨[], readReqSlots 1 19, true⟩

/-! ### PLC read slot parsing (React variant)

The React variant of `part_002` is the one source whose read path maps
a bulk-read response into boxes; its parsing logic is embedded below
over an arbitrary response. -/

/-- A raw per-slot record of a bulk-read response (`l` is the depth). -/
structure RawSlot where
  x : ℚ
  y : ℚ
  w : ℚ
  l : ℚ
  rot : ℚ
deriving DecidableEq, Repr

/-- A reconstructed box of the React read path (rotation kept raw: the
source casts it without coercion). -/
structure PBox where
  id : ℕ
  x : ℚ
  y : ℚ
  w : ℚ
  d : ℚ
  rot : ℚ
deriving DecidableEq, Repr

/-- The slot-parsing step of the React `readPattern`: map each slot at
0-based index `i` to a box with `id = i + 1`, then keep only boxes with
positive width and depth.  Note the id is assigned before the filter. -/
def parseSlots (resp : List RawSlot) : List PBox :=
  (mapWithIdx (fun i raw => PBox.mk (i + 1) raw.x raw.y raw.w raw.l raw.rot) 0 resp).filter
    (fun b => decide (0 < b.w ∧ 0 < b.d))

/-! ### Invariants and specification-side shapes -/

/-- A box is a fixpoint of `clampBoxToPallet`: each coordinate equals
its own clamp.  When the rotated extents fit on the pallet this is
exactly membership in `[hw, palletW-hw] × [hd, palletD-hd]`; when an
extent exceeds the pallet the coordinate is pinned to the lower bound
(`hw`, resp. `hd`). -/
def BoxClamped (pW pD : ℚ) (b : Box) : Prop :=
  b.x = clampQ b.x (hw b) (pW - hw b) ∧ b.y = clampQ b.y (hd b) (pD - hd b)

instance (pW pD : ℚ) (b : Box) : Decidable (BoxClamped pW pD b) := by
  unfold BoxClamped; infer_instance

/-- The state-level clamp invariant: every box is a clamp fixpoint. -/
def ClampInv (st : EditorState) : Prop :=
  ∀ b ∈ st.boxes, BoxClamped st.palletW st.palletD b

/-- Id-allocation invariant: every existing box id is below `nextId`. -/
def FreshInv (st : EditorState) : Prop :=
  ∀ b ∈ st.boxes, b.id < st.nextId

/-- The claim hypothesis of the round-trip law: nonzero pallet
dimensions and grid, and every box grid-snapped and inside the pallet
boundary interval. -/
def snappedAndInBounds (st : EditorState) : Prop :=
  st.palletW ≠ 0 ∧ st.palletD ≠ 0 ∧ st.grid ≠ 0 ∧
  ∀ b ∈ st.boxes,
    snapQ b.x st.grid = b.x ∧ snapQ b.y st.grid = b.y ∧
    hw b ≤ b.x ∧ b.x ≤ st.palletW - hw b ∧
    hd b ≤ b.y ∧ b.y ≤ st.palletD - hd b

instance (st : EditorState) : Decidable (snappedAndInBounds st) := by
  unfold snappedAndInBounds; infer_instance

/-- The slot index carried by a per-box field tag, if any. -/
def tagFieldIdx (t : TagW) : Option ℕ :=
  match t.var with
  | .field i _ => some i
  | _ => none

/-- Modelled from the spec: the index sequence `1..N`, each index five
times in a row, that the write tag list is claimed to carry. -/
def idxBlocks : ℕ → ℕ → List ℕ
  | _, 0 => []
  | i, n + 1 => i :: i :: i :: i :: i :: idxBlocks (i + 1) n

/-- Modelled from the spec: the 1-based indices (from `i`) of the slots
of a bulk-read response whose width and depth are both positive. -/
def keptIndices : ℕ → List RawSlot → List ℕ
  | _, [] => []
  | i, s :: ss =>
    if 0 < s.w ∧ 0 < s.l then i :: keptIndices (i + 1) ss else keptIndices (i + 1) ss

/-- A sample session token for concrete instances. -/
def tokSample : String := "t"

/-- A sample box for concrete instances. -/
def boxSample : Box := { id := 1, x := 100, y := 100, w := 300, d := 200, rot := Rot.r0 }

/-- A sample state for the round-trip witness: default pallet, one
snapped in-bounds box. -/
def stSample : EditorState :=
  { palletW := 1200, palletD := 800, grid := 20
    boxes := [{ id := 1, x := 600, y := 400, w := 300, d := 200, rot := Rot.r0 }]
    nextId := 2, selectedId := some 1 }

/-! ### Helper lemmas -/

section

attribute [local semireducible] Rat.add Rat.mul Rat.sub Rat.inv

theorem clampQ_idem (n lo hi : ℚ) : clampQ (clampQ n lo hi) lo hi = clampQ n lo hi := by
  unfold clampQ
  rcases le_total lo (min hi n) with h | h
  · rw [max_eq_right h, ← min_assoc, min_self, max_eq_right h]
  · rw [max_eq_left h, max_eq_left (min_le_right hi lo)]

theorem clampQ_eq_self {n lo hi : ℚ} (h1 : lo ≤ n) (h2 : n ≤ hi) : clampQ n lo hi = n := by
  unfold clampQ
  rw [min_eq_right h2, max_eq_right h1]

theorem clampBox_clamped (pW pD : ℚ) (b : Box) :
    BoxClamped pW pD (clampBoxToPallet pW pD b) :=
  ⟨(clampQ_idem b.x (hw b) (pW - hw b)).symm, (clampQ_idem b.y (hd b) (pD - hd b)).symm⟩

theorem mem_updateFirst {p : Box → Bool} {f : Box → Box} {l : List Box} {a : Box}
    (ha : a ∈ updateFirst p f l) : a ∈ l ∨ ∃ b, b ∈ l ∧ a = f b := by
  induction l with
  | nil => simp [updateFirst] at ha
  | cons c cs ih =>
    simp only [updateFirst] at ha
    by_cases hc : p c
    · rw [if_pos hc] at ha
      rcases List.mem_cons.mp ha with h | h
      · exact Or.inr ⟨c, List.mem_cons_self .., h⟩
      · exact Or.inl (List.mem_cons_of_mem _ h)
    · rw [if_neg hc] at ha
      rcases List.mem_cons.mp ha with h | h
      · exact Or.inl (h ▸ List.mem_cons_self ..)
      · rcases ih h with h' | ⟨b, hb, hab⟩
        · exact Or.inl (List.mem_cons_of_mem _ h')
        · exact Or.inr ⟨b, List.mem_cons_of_mem _ hb, hab⟩

theorem mem_mapWithIdx {α β : Type} {f : ℕ → α → β} {b : β} :
    ∀ {l : List α} {i : ℕ}, b ∈ mapWithIdx f i l →
      ∃ j a, i ≤ j ∧ j < i + l.length ∧ a ∈ l ∧ b = f j a := by
  intro l
  induction l with
  | nil => intro i hb; simp [mapWithIdx] at hb
  | cons c cs ih =>
    intro i hb
    simp only [mapWithIdx] at hb
    rcases List.mem_cons.mp hb with h | h
    · exact ⟨i, c, le_refl i, by simp only [List.length_cons]; omega,
        List.mem_cons_self .., h⟩
    · rcases ih h with ⟨j, a, hij, hlt, hmem, heq⟩
      exact ⟨j, a, by omega, by simp only [List.length_cons]; omega,
        List.mem_cons_of_mem _ hmem, heq⟩

theorem length_mapWithIdx {α β : Type} (f : ℕ → α → β) :
    ∀ (i : ℕ) (l : List α), (mapWithIdx f i l).length = l.length := by
  intro i l
  induction l generalizing i with
  | nil => rfl
  | cons c cs ih => simp only [mapWithIdx, List.length_cons, ih]

theorem applyOp_clampInv (o : Op) (st : EditorState) (h : ClampInv st) :
    ClampInv (applyOp o st) := by
  cases o with
  | add bw bd x y =>
    intro b hb
    rcases List.mem_append.mp hb with hmem | hmem
    · exact h b hmem
    · rcases List.mem_singleton.mp hmem with rfl
      exact clampBox_clamped _ _ _
  | rotate =>
    show ClampInv (rotateSelected st)
    unfold rotateSelected
    cases st.selectedId with
    | none => exact h
    | some i =>
      intro b hb
      rcases mem_updateFirst hb with hmem | ⟨c, _, rfl⟩
      · exact h b hmem
      · exact clampBox_clamped _ _ _
  | delete =>
    show ClampInv (deleteSelected st)
    unfold deleteSelected
    cases st.selectedId with
    | none => exact h
    | some i =>
      intro b hb
      exact h b (List.mem_filter.mp hb).1
  | clear =>
    intro b hb
    simp [applyOp, clearAll] at hb
  | drag tx ty =>
    show ClampInv (dragMove tx ty st)
    unfold dragMove
    cases st.selectedId with
    | none => exact h
    | some i =>
      intro b hb
      rcases mem_updateFirst hb with hmem | ⟨c, _, rfl⟩
      · exact h b hmem
      · exact clampBox_clamped _ _ _
  | inputs pw pd g =>
    intro b hb
    rcases List.mem_map.mp hb with ⟨c, _, rfl⟩
    exact clampBox_clamped _ _ _
  | imp r =>
    show ClampInv (importRecipe st r)
    cases r with
    | none => exact h
    | some rec =>
      simp only [importRecipe]
      by_cases hv : rec.palletW = 0 ∨ rec.palletD = 0
      · rw [if_pos hv]; exact h
      · rw [if_neg hv]
        intro b hb
        rcases mem_mapWithIdx hb with ⟨j, a, _, _, _, rfl⟩
        exact clampBox_clamped _ _ _
  | select wx wy =>
    intro b hb
    exact h b hb

theorem applyOps_clampInv (ops : List Op) (st : EditorState) (h : ClampInv st) :
    ClampInv (applyOps ops st) := by
  induction ops generalizing st with
  | nil => exact h
  | cons o os ih => exact ih (applyOp o st) (applyOp_clampInv o st h)

/-- Claim C1 (counterexample): adding a `900 × 300` box at the centre
of the default `1200 × 800` pallet (it fits at `rot = 0`) and then
rotating it makes its rotation-adjusted half depth `hd = 450` exceed
the pallet: the re-clamp pins the centre `y` to `450`, outside the
(empty) claimed interval `[hd, palletD - hd] = [450, 350]`, so the
claimed boundary membership fails when a rotated extent exceeds the
pallet dimension. -/
theorem clamp_interval_counterexample :
    ∃ b ∈ (applyOps [Op.add 900 300 600 400, Op.rotate] initState).boxes,
      ¬ (hd b ≤ b.y
        ∧ b.y ≤ (applyOps [Op.add 900 300 600 400, Op.rotate] initState).palletD - hd b) := by
  decide

/-- Claim C1 (amended): after every sequence of mutating operations
(add, move/drag, rotate, pallet resize, grid change, import, delete,
clear, select) every box centre is a fixpoint of the pallet clamp:
`x = clamp(x, hw, palletW-hw)` and `y = clamp(y, hd, palletD-hd)`.
When the rotated extents fit this is exactly `x ∈ [hw, palletW-hw]` and
`y ∈ [hd, palletD-hd]`; when a rotated extent exceeds the pallet
dimension the coordinate is pinned to the lower bound `hw` (resp. `hd`)
and the claimed interval is empty. -/
theorem clamp_fixpoint_after_ops (ops : List Op) : ClampInv (applyOps ops initState) :=
  applyOps_clampInv ops initState (by intro b hb; simp [initState] at hb)

theorem applyOp_freshInv (o : Op) (st : EditorState) (h : FreshInv st) :
    FreshInv (applyOp o st) := by
  cases o with
  | add bw bd x y =>
    intro b hb
    rcases List.mem_append.mp hb with hmem | hmem
    · exact Nat.lt_succ_of_lt (h b hmem)
    · rcases List.mem_singleton.mp hmem with rfl
      exact Nat.lt_succ_self _
  | rotate =>
    show FreshInv (rotateSelected st)
    unfold rotateSelected
    cases st.selectedId with
    | none => exact h
    | some i =>
      intro b hb
      rcases mem_updateFirst hb with hmem | ⟨c, hc, rfl⟩
      · exact h b hmem
      · exact h c hc
  | delete =>
    show FreshInv (deleteSelected st)
    unfold deleteSelected
    cases st.selectedId with
    | none => exact h
    | some i =>
      intro b hb
      exact h b (List.mem_filter.mp hb).1
  | clear =>
    intro b hb
    simp [applyOp, clearAll] at hb
  | drag tx ty =>
    show FreshInv (dragMove tx ty st)
    unfold dragMove
    cases st.selectedId with
    | none => exact h
    | some i =>
      intro b hb
      rcases mem_updateFirst hb with hmem | ⟨c, hc, rfl⟩
      · exact h b hmem
      · exact h c hc
  | inputs pw pd g =>
    intro b hb
    rcases List.mem_map.mp hb with ⟨c, hc, rfl⟩
    exact h c hc
  | imp r =>
    show FreshInv (importRecipe st r)
    cases r with
    | none => exact h
    | some rec =>
      simp only [importRecipe]
      by_cases hv : rec.palletW = 0 ∨ rec.palletD = 0
      · rw [if_pos hv]; exact h
      · rw [if_neg hv]
        intro b hb
        rcases mem_mapWithIdx hb with ⟨j, a, _, hj, _, rfl⟩
        show j + 1 < (mapWithIdx (importBoxF _ _ _) 0 rec.boxes).length + 1
        rw [length_mapWithIdx]
        omega
  | select wx wy =>
    intro b hb
    exact h b hb

theorem applyOps_freshInv (ops : List Op) (st : EditorState) (h : FreshInv st) :
    FreshInv (applyOps ops st) := by
  induction ops generalizing st with
  | nil => exact h
  | cons o os ih => exact ih (applyOp o st) (applyOp_freshInv o st h)

/-- Claim C9 (counterexample): after add, add, delete (which removes the
selected, most recently added box with id 2) the collection holds only
the box with id 1, yet the next add allocates id 3 — not
`max existing id + 1 = 2` — because `nextId` is a counter that never
decreases on delete. -/
theorem add_id_counter_counterexample :
    (applyOps [Op.add 300 200 600 400, Op.add 300 200 600 400, Op.delete]
        initState).boxes.map Box.id = [1]
    ∧ (applyOps [Op.add 300 200 600 400, Op.add 300 200 600 400, Op.delete,
        Op.add 300 200 600 400] initState).boxes.map Box.id = [1, 3] := by
  decide

/-- Claim C9 (amended): after any interleaving of operations starting
from the initial state, the add-box operation appends a box whose id is
the current value of the `nextId` counter, which is strictly greater
than every existing box id (so ids are fresh); it equals
`max existing id + 1` only when no box with a larger id has been
deleted, and equals 1 exactly when the counter was never advanced since
the last clear/import. -/
theorem add_appends_fresh_id (ops : List Op) (bw bd x y : ℚ) :
    (applyOp (Op.add bw bd x y) (applyOps ops initState)).boxes
      = (applyOps ops initState).boxes
        ++ [newBoxOf bw bd x y (applyOps ops initState)]
    ∧ (newBoxOf bw bd x y (applyOps ops initState)).id
      = (applyOps ops initState).nextId
    ∧ ∀ b ∈ (applyOps ops initState).boxes,
        b.id < (newBoxOf bw bd x y (applyOps ops initState)).id := by
  refine ⟨rfl, rfl, ?_⟩
  exact applyOps_freshInv ops initState (by intro b hb; simp [initState] at hb)

theorem hitTest_append_single (l : List Box) (b : Box) (wx wy : ℚ) :
    hitTest (l ++ [b]) wx wy
      = if insideB b wx wy then some b else hitTest l wx wy := by
  induction l with
  | nil => rfl
  | cons c cs ih =>
    show (match hitTest (cs ++ [b]) wx wy with
      | some r => some r
      | none => if insideB c wx wy then some c else none) = _
    rw [ih]
    by_cases hb : insideB b wx wy
    · rw [if_pos hb, if_pos hb]
    · rw [if_neg hb, if_neg hb]
      rfl

/-- Claim C10 (confirmed): the add-box operation always creates a box
with `rot = 0`, appends it at the end of the collection, makes its id
the current selection (replacing any previous selection), and the new
box — being last — wins hit-testing at any point inside it. -/
theorem addBox_rot_append_select_topmost (st : EditorState) (bw bd x y : ℚ) :
    (addBoxAt bw bd x y st).boxes = st.boxes ++ [newBoxOf bw bd x y st]
    ∧ (newBoxOf bw bd x y st).rot = Rot.r0
    ∧ (addBoxAt bw bd x y st).selectedId = some (newBoxOf bw bd x y st).id
    ∧ ∀ wx wy, insideB (newBoxOf bw bd x y st) wx wy →
        hitTest (addBoxAt bw bd x y st).boxes wx wy = some (newBoxOf bw bd x y st) := by
  refine ⟨rfl, rfl, rfl, ?_⟩
  intro wx wy hin
  show hitTest (st.boxes ++ [newBoxOf bw bd x y st]) wx wy = _
  rw [hitTest_append_single, if_pos hin]

/-- Witness for C10 at a concrete input: the default box added at the
centre of the default pallet contains the point `(600, 400)` and is
returned by the hit test there. -/
theorem addBox_rot_append_select_topmost_witness :
    insideB (newBoxOf 300 200 600 400 initState) 600 400
    ∧ hitTest (addBoxAt 300 200 600 400 initState).boxes 600 400
        = some (newBoxOf 300 200 600 400 initState) :=
  ⟨by decide,
    (addBox_rot_append_select_topmost initState 300 200 600 400).2.2.2 600 400 (by decide)⟩

theorem rotCoerce (r : Rot) : (if rotVal r = 90 then Rot.r90 else Rot.r0) = r := by
  cases r with
  | r0 => rw [if_neg (by norm_num [rotVal])]
  | r90 => rw [if_pos (by norm_num [rotVal])]

theorem import_export_boxes (pW pD g : ℚ) (l : List Box) :
    ∀ i : ℕ,
      (∀ b ∈ l, snapQ b.x g = b.x ∧ snapQ b.y g = b.y ∧
        hw b ≤ b.x ∧ b.x ≤ pW - hw b ∧ hd b ≤ b.y ∧ b.y ≤ pD - hd b) →
      mapWithIdx (importBoxF pW pD g) i
          (l.map (fun b => (⟨b.x, b.y, b.w, b.d, rotVal b.rot⟩ : RecipeBox)))
        = mapWithIdx (fun j b => { b with id := j + 1 }) i l := by
  induction l with
  | nil => intro i _; rfl
  | cons b l ih =>
    intro i h
    obtain ⟨h1, h2, h3, h4, h5, h6⟩ := h b (List.mem_cons_self ..)
    have hrest := fun b' hb' => h b' (List.mem_cons_of_mem _ hb')
    simp only [List.map_cons, mapWithIdx]
    refine congrArg₂ (· :: ·) ?_ (ih (i + 1) hrest)
    show clampBoxToPallet pW pD
        { id := i + 1, x := snapQ b.x g, y := snapQ b.y g, w := b.w, d := b.d,
          rot := if rotVal b.rot = 90 then Rot.r90 else Rot.r0 }
      = { b with id := i + 1 }
    rw [h1, h2, rotCoerce]
    show ({ id := i + 1, x := clampQ b.x (hw b) (pW - hw b),
            y := clampQ b.y (hd b) (pD - hd b), w := b.w, d := b.d,
            rot := b.rot } : Box)
      = { b with id := i + 1 }
    rw [clampQ_eq_self h3 h4, clampQ_eq_self h5 h6]

theorem renum_map_tuple (l : List Box) : ∀ i : ℕ,
    (mapWithIdx (fun j b => { b with id := j + 1 }) i l).map
        (fun b => (b.x, b.y, b.w, b.d, b.rot))
      = l.map (fun b => (b.x, b.y, b.w, b.d, b.rot)) := by
  induction l with
  | nil => intro _; rfl
  | cons b l ih => intro i; simp only [mapWithIdx, List.map_cons, ih]

theorem renum_map_id (l : List Box) : ∀ i : ℕ,
    (mapWithIdx (fun j b => { b with id := j + 1 }) i l).map Box.id
      = List.range' (i + 1) l.length := by
  induction l with
  | nil => intro _; rfl
  | cons b l ih =>
    intro i
    simp only [mapWithIdx, List.map_cons, List.length_cons, List.range', ih]

/-- Claim C2 (confirmed): for a state whose pallet dimensions and grid
are nonzero and whose boxes are grid-snapped and inside the boundary
interval, importing the recipe produced by export reproduces the pallet
width, pallet depth and grid exactly, and the same sequence of
`(x, y, w, d, rot)` tuples, with ids reassigned `1..N` in array
order. -/
theorem import_export_roundtrip (st : EditorState) (h : snappedAndInBounds st) :
    (importRecipe st (some (exportRecipe st))).palletW = st.palletW
    ∧ (importRecipe st (some (exportRecipe st))).palletD = st.palletD
    ∧ (importRecipe st (some (exportRecipe st))).grid = st.grid
    ∧ (importRecipe st (some (exportRecipe st))).boxes.map
        (fun b => (b.x, b.y, b.w, b.d, b.rot))
      = st.boxes.map (fun b => (b.x, b.y, b.w, b.d, b.rot))
    ∧ (importRecipe st (some (exportRecipe st))).boxes.map Box.id
      = List.range' 1 st.boxes.length := by
  obtain ⟨hW, hD, hG, hball⟩ := h
  simp only [importRecipe, exportRecipe]
  rw [if_neg (not_or.mpr ⟨hW, hD⟩), if_neg hG,
    import_export_boxes st.palletW st.palletD st.grid st.boxes 0 hball]
  exact ⟨rfl, rfl, rfl, renum_map_tuple st.boxes 0, renum_map_id st.boxes 0⟩

/-- Witness for C2 at a concrete state: default pallet and one snapped,
in-bounds `300 × 200` box at `(600, 400)`. -/
theorem import_export_roundtrip_witness :
    snappedAndInBounds stSample
    ∧ (importRecipe stSample (some (exportRecipe stSample))).boxes.map
        (fun b => (b.x, b.y, b.w, b.d, b.rot))
      = stSample.boxes.map (fun b => (b.x, b.y, b.w, b.d, b.rot)) :=
  ⟨by decide, (import_export_roundtrip stSample (by decide)).2.2.2.1⟩

/-- Claim C7 (counterexample): a structurally well-formed recipe with
a negative pallet width `-500` is not rejected by import: the falsiness
check only catches zero/absent dimensions, so the prior state is
mutated and the pallet width becomes `-500`. -/
theorem import_negative_pallet_counterexample :
    (importRecipe initState (some ⟨-500, 800, 20, []⟩)).palletW = -500
    ∧ ¬ importRecipe initState (some ⟨-500, 800, 20, []⟩) = initState := by
  decide

/-- Claim C7 (amended): import fails and leaves the entire prior state
(pallet config, grid, boxes, ids) unchanged when the text is
unparseable or when the recipe's pallet width or depth is absent or
zero; a negative pallet width or depth is accepted, not rejected (the
`part_001` variant stores it verbatim; the `part_002` variant clamps it
to the 100 mm minimum). -/
theorem import_rejects_malformed_or_falsy (st : EditorState) (r : Recipe)
    (h : r.palletW = 0 ∨ r.palletD = 0) :
    importRecipe st (some r) = st ∧ importRecipe st none = st := by
  refine ⟨?_, rfl⟩
  simp only [importRecipe]
  rw [if_pos h]

/-- Witness for C7 at a concrete input: a recipe with zero pallet width
is rejected and the state is unchanged, as is unparseable text. -/
theorem import_rejects_malformed_or_falsy_witness :
    ((⟨0, 800, 20, []⟩ : Recipe).palletW = 0 ∨ (⟨0, 800, 20, []⟩ : Recipe).palletD = 0)
    ∧ importRecipe initState (some ⟨0, 800, 20, []⟩) = initState
    ∧ importRecipe initState none = initState :=
  ⟨Or.inl rfl,
    (import_rejects_malformed_or_falsy initState ⟨0, 800, 20, []⟩ (Or.inl rfl)).1,
    (import_rejects_malformed_or_falsy initState ⟨0, 800, 20, []⟩ (Or.inl rfl)).2⟩

/-- Claim C8 (confirmed): for a viewport whose scale is in the clamped
range, after `zoomAt(sx, sy, factor)` the world point that was under
`(sx, sy)` before the zoom maps back to exactly `(sx, sy)` under the
new viewport (exactly, in the rational model of the float
arithmetic). -/
theorem zoom_anchor_invariant (v : Viewport) (sx sy factor : ℚ)
    (h : 1/20 ≤ v.scale ∧ v.scale ≤ 4) :
    worldToScreen (zoomAt v sx sy factor)
        (screenToWorld v sx sy).1 (screenToWorld v sx sy).2 = (sx, sy) := by
  have h1 : (1 : ℚ)/20 ≤ clampQ (v.scale * factor) (1/20) 4 := le_max_left _ _
  have hs : clampQ (v.scale * factor) (1/20) 4 ≠ 0 :=
    ne_of_gt (lt_of_lt_of_le (by norm_num) h1)
  have hv : v.scale ≠ 0 := ne_of_gt (lt_of_lt_of_le (by norm_num) h.1)
  simp only [zoomAt, worldToScreen, screenToWorld, Prod.mk.injEq]
  constructor
  · field_simp
    ring
  · field_simp
    ring

/-- Witness for C8 at a concrete input: viewport `(30, 30, 0.5)`,
pointer at `(100, 50)`, wheel-in factor `1.12`. -/
theorem zoom_anchor_invariant_witness :
    ((1 : ℚ)/20 ≤ (Viewport.mk 30 30 (1/2)).scale ∧ (Viewport.mk 30 30 (1/2)).scale ≤ 4)
    ∧ worldToScreen (zoomAt ⟨30, 30, 1/2⟩ 100 50 (28/25))
        (screenToWorld ⟨30, 30, 1/2⟩ 100 50).1 (screenToWorld ⟨30, 30, 1/2⟩ 100 50).2
      = (100, 50) :=
  ⟨by decide, zoom_anchor_invariant ⟨30, 30, 1/2⟩ 100 50 (28/25) (by decide)⟩

theorem parse_slots_aux (resp : List RawSlot) : ∀ i : ℕ,
    ((mapWithIdx (fun j raw => PBox.mk (j + 1) raw.x raw.y raw.w raw.l raw.rot) i resp).filter
        (fun b => decide (0 < b.w ∧ 0 < b.d))).map (fun b => (b.x, b.y, b.w, b.d, b.rot))
      = (resp.filter (fun s => decide (0 < s.w ∧ 0 < s.l))).map
          (fun s => (s.x, s.y, s.w, s.l, s.rot))
    ∧ ((mapWithIdx (fun j raw => PBox.mk (j + 1) raw.x raw.y raw.w raw.l raw.rot) i resp).filter
        (fun b => decide (0 < b.w ∧ 0 < b.d))).map PBox.id = keptIndices (i + 1) resp := by
  induction resp with
  | nil => intro _; exact ⟨rfl, rfl⟩
  | cons s ss ih =>
    intro i
    obtain ⟨ih1, ih2⟩ := ih (i + 1)
    by_cases hc : 0 < s.w ∧ 0 < s.l
    · constructor
      · simpa [mapWithIdx, List.filter_cons, keptIndices, hc] using ih1
      · simpa [mapWithIdx, List.filter_cons, keptIndices, hc] using ih2
    · constructor
      · simpa [mapWithIdx, List.filter_cons, keptIndices, hc] using ih1
      · simpa [mapWithIdx, List.filter_cons, keptIndices, hc] using ih2

/-- Claim C3 (counterexample): on a bulk-read response whose first slot
has zero dimensions and whose second slot is populated, the single
reconstructed box carries id 2 — its 1-based slot index — not the
claimed fresh sequential id 1, because the React read path assigns ids
before filtering. -/
theorem read_slots_id_counterexample :
    (parseSlots [⟨0, 0, 0, 0, 0⟩, ⟨200, 200, 300, 200, 0⟩]).length = 1
    ∧ (parseSlots [⟨0, 0, 0, 0, 0⟩, ⟨200, 200, 300, 200, 0⟩]).map PBox.id = [2]
    ∧ ¬ (parseSlots [⟨0, 0, 0, 0, 0⟩, ⟨200, 200, 300, 200, 0⟩]).map PBox.id = [1] := by
  decide

/-- Claim C3 (amended): the React read path reconstructs a box exactly
for each slot whose width and depth are both positive, drops the other
slots, and preserves slot order; but each reconstructed box's id is the
1-based index of its slot in the response (ids are assigned before the
filter), so ids are `1..M` only when the populated slots form a prefix
of the response.  (The `part_001` `PlcManager.readPattern` never
reconstructs boxes at all: its response mapping is a stub returning the
empty collection.) -/
theorem read_slots_parse (resp : List RawSlot) :
    (parseSlots resp).map (fun b => (b.x, b.y, b.w, b.d, b.rot))
      = (resp.filter (fun s => decide (0 < s.w ∧ 0 < s.l))).map
          (fun s => (s.x, s.y, s.w, s.l, s.rot))
    ∧ (parseSlots resp).map PBox.id = keptIndices 1 resp :=
  parse_slots_aux resp 0

/-- Claim C5 (confirmed): with no session token, both the PLC write
path and the PLC read path return their failure value immediately —
write reports `false`, read returns the empty collection (the value it
returns on every error path) — and the injected transport capability is
not invoked: no tag list is constructed or handed to a bulk call. -/
theorem no_token_refuses_without_transport (bs : List Box) :
    writePatternV1 none bs = ⟨false, [], false⟩
    ∧ readPatternV1 none = ⟨[], [], false⟩ :=
  ⟨rfl, rfl⟩

theorem boxParamsV1_length (bs : List Box) : ∀ i : ℕ,
    (boxParamsV1 i bs).length = 5 * bs.length := by
  induction bs with
  | nil => intro _; rfl
  | cons b l ih =>
    intro i
    simp only [boxParamsV1, List.length_cons, ih, List.length_nil]
    omega

theorem boxParamsV1_idx (bs : List Box) : ∀ i : ℕ,
    (boxParamsV1 i bs).filterMap tagFieldIdx = idxBlocks i bs.length := by
  induction bs with
  | nil => intro _; rfl
  | cons b l ih =>
    intro i
    simp only [boxParamsV1, List.filterMap_cons, tagFieldIdx, List.length_cons, idxBlocks, ih]

/-- Claim C6 (corrected, the part that holds): the `part_001` write
path hands the transport exactly `1 + 5N` tag/value pairs for `N`
boxes: one leading `BoxCount` tag carrying `N`, then for each box five
field tags (`x, y, w, d, rot`) whose slot indices run `1..N` in
collection order, five apiece. -/
theorem write_tags_shape_v1 (tok : String) (bs : List Box) :
    (writePatternV1 (some tok) bs).sent = writeParamsV1 bs
    ∧ (writeParamsV1 bs).length = 1 + 5 * bs.length
    ∧ (writeParamsV1 bs).head? = some ⟨.boxCount, .num (bs.length : ℚ)⟩
    ∧ (writeParamsV1 bs).filterMap tagFieldIdx = idxBlocks 1 bs.length := by
  refine ⟨rfl, ?_, rfl, ?_⟩
  · simp only [writeParamsV1, List.length_cons, boxParamsV1_length]
    omega
  · simp only [writeParamsV1, List.filterMap_cons, tagFieldIdx, boxParamsV1_idx]

/-- Claim C6 (counterexample): the `part_002` `PlcManager.writePattern`
emits three extra scalar configuration tags (layer height, layer count,
`useWebPattern`) before the count tag, so writing one box hands the
transport `4 + 5·1 = 9` pairs, not the claimed `1 + 5·1 = 6`. -/
theorem write_tags_v2_count_counterexample :
    (writePatternV2 (some tokSample) 200 1 [boxSample]).sent.length = 4 + 5 * 1
    ∧ ¬ (writePatternV2 (some tokSample) 200 1 [boxSample]).sent.length = 1 + 5 * 1 := by
  decide

/-- Claim C4 (counterexample): the `part_001` `PlcManager.writePattern`
has no box-count limit check: invoked with 21 boxes it reports success
and hands the transport all `1 + 5·21 = 106` tag/value pairs instead of
refusing before any pair is sent. -/
theorem write_over_limit_sent_v1_counterexample :
    (writePatternV1 (some tokSample) (List.replicate 21 boxSample)).sent.length = 106
    ∧ (writePatternV1 (some tokSample) (List.replicate 21 boxSample)).called = true
    ∧ (writePatternV1 (some tokSample) (List.replicate 21 boxSample)).success = true := by
  decide

/-- Claim C4 (amended): only the `part_002` `PlcManager.writePattern`
guards the 20-slot limit: for a box list longer than 20 it reports
failure before constructing any tag/value pair and the transport is not
invoked (the model is untouched — the write path never mutates it); the
`part_001` variant sends every box without a limit check. -/
theorem write_over_limit_refused_v2 (tok : String) (height layers : ℚ) (bs : List Box)
    (h : 20 < bs.length) :
    writePatternV2 (some tok) height layers bs = ⟨false, [], false⟩ := by
  simp only [writePatternV2]
  rw [if_pos h]

/-- Witness for C4 at a concrete input: 21 boxes are refused by the
guarded variant. -/
theorem write_over_limit_refused_v2_witness :
    20 < (List.replicate 21 boxSample).length
    ∧ writePatternV2 (some tokSample) 200 1 (List.replicate 21 boxSample)
      = ⟨false, [], false⟩ :=
  ⟨by decide,
    write_over_limit_refused_v2 tokSample 200 1 (List.replicate 21 boxSample) (by decide)⟩

end

end Pallet
